import Mathlib

/-
Verification development for the stelar.js core: the reactive state store
(StateManager, src/subsystems/state-manager.js), the render scheduler
(Renderer, src/subsystems/renderer.js) and the connection lifecycle
(Component, src/stelar.js).

The JavaScript state graph is embedded as a tree of `Value`s; paths are
lists of key segments (the source joins them with a dot, and recovers the
top-level segment by splitting at the first dot, which is exactly the head of
the segment list as long as user keys contain no dot).  Machinery that has
no observable effect in a value semantics (the WeakMap proxy cache, which
only stabilises wrapper identity) is not modelled.  Symbol and `__proto__`
keys, which the source routes around the traps, are outside the modelled
key space: keys here are ordinary string data properties.
-/

set_option autoImplicit false

namespace Stelar

/-- A JavaScript primitive value.  `Int` stands for the numeric values that
actually occur in state; `nan` is kept separate so that the `Object.is`
comparison (which treats NaN as equal to itself) is representable. -/
inductive Prim where
  | num (n : Int)
  | str (s : String)
  | boolean (b : Bool)
  | nan
  | nullV
  | undef
deriving DecidableEq

/-- A node of the state graph: a primitive, a key-value mapping, or an
ordered sequence. -/
inductive Value where
  | prim (p : Prim)
  | obj (fields : List (String × Value))
  | arr (elems : List Value)

/-- `Object.is` as used by the set trap.  On primitives it is value
equality with NaN equal to itself.  Reference equality of two composites is
not representable in a value semantics; under the spec's single-owner-tree
discipline a composite being assigned is always a fresh object, for which
`Object.is` returns false, so composites compare false here. -/
def Object_is : Value → Value → Bool
  | Value.prim a, Value.prim b => decide (a = b)
  | _, _ => false

/-- First-match lookup in an object's field list (property read). -/
def lookupField : List (String × Value) → String → Option Value
  | [], _ => none
  | (k', v) :: fs, k => if k' = k then some v else lookupField fs k

/-- Replace the value of key `k`, or append the binding if `k` is absent
(property write on an object). -/
def setField : List (String × Value) → String → Value → List (String × Value)
  | [], k, v => [(k, v)]
  | (k', v') :: fs, k, v =>
    if k' = k then (k, v) :: fs else (k', v') :: setField fs k v

/-- Remove the binding of key `k` (property deletion on an object). -/
def removeField : List (String × Value) → String → List (String × Value)
  | [], _ => []
  | (k', v) :: fs, k =>
    if k' = k then removeField fs k else (k', v) :: removeField fs k

/-- Property read on a composite (`Reflect.get` restricted to own data
properties): object fields by name, array elements by decimal index. -/
def getProp : Value → String → Option Value
  | Value.obj fs, k => lookupField fs k
  | Value.arr es, k =>
    match k.toNat? with
    | some i => es[i]?
    | none => none
  | _, _ => none

/-- Property read defaulting to `undefined`, as `Reflect.get` yields for an
absent property. -/
def getPropD (v : Value) (k : String) : Value :=
  (getProp v k).getD (Value.prim Prim.undef)

/-- Property write on a composite (`Reflect.set` on own data properties).
Fails (`none`) where the write is outside the modelled fragment
(writes to primitives, array writes past the end creating holes). -/
def setPropV : Value → String → Value → Option Value
  | Value.obj fs, k, v => some (Value.obj (setField fs k v))
  | Value.arr es, k, v =>
    match k.toNat? with
    | some i =>
      if i < es.length then some (Value.arr (es.set i v))
      else if i = es.length then some (Value.arr (es ++ [v]))
      else none
    | none => none
  | _, _, _ => none

/-- Whether a composite has the own property `k` (`Reflect.has`, restricted
to own data properties). -/
def hasProp : Value → String → Bool
  | Value.obj fs, k => (lookupField fs k).isSome
  | Value.arr es, k =>
    match k.toNat? with
    | some i => decide (i < es.length)
    | none => false
  | _, _ => false

/-- Property deletion on a composite.  Deleting an array index leaves a
hole, which reads back as `undefined`. -/
def delPropV : Value → String → Option Value
  | Value.obj fs, k => some (Value.obj (removeField fs k))
  | Value.arr es, k =>
    match k.toNat? with
    | some i =>
      if i < es.length then some (Value.arr (es.set i (Value.prim Prim.undef)))
      else some (Value.arr es)
    | none => none
  | _, _ => none

/-- Navigate a path from the root of the state graph, as the chain of get
traps does when user code reads `state.a.b`. -/
def getPath : Value → List String → Option Value
  | v, [] => some v
  | v, k :: ks =>
    match getProp v k with
    | some c => getPath c ks
    | none => none

/-- Replace the node addressed by a path.  This is how an in-place JS
mutation of a nested node reads in the single-owner value tree. -/
def replaceAt : Value → List String → Value → Option Value
  | _, [], x => some x
  | v, k :: ks, x =>
    match getProp v k with
    | some c => (replaceAt c ks x).bind (fun c2 => setPropV v k c2)
    | none => none

/-- The list of array methods the get trap intercepts
(state-manager.js, `mutatingArrayMethods`). -/
def mutatingArrayMethods : List String :=
  ["push", "pop", "shift", "unshift", "splice", "sort", "reverse", "fill",
    "copyWithin"]

/-- `Array.prototype.push` on the raw sequence: appends the arguments and
returns the new length. -/
def arrayPush (args : List Value) (es : List Value) : List Value × Value :=
  (es ++ args, Value.prim (Prim.num (Int.ofNat (es.length + args.length))))

/-- The mutable per-component core shared by StateManager and Renderer:
the raw state tree, the accumulated change set (`_changedProps`, a Set of
paths in insertion order), the reactivity flag, whether
`this.component?.renderer` is non-null, the component's `isDestroyed`
flag, the Renderer's `_renderScheduled` token, and a count of how many
`requestAnimationFrame` callbacks have been requested (each such callback
performs exactly one flush when the frame boundary arrives). -/
structure CompState where
  raw : Value
  changedProps : List (List String)
  isReactive : Bool
  rendererPresent : Bool
  isDestroyed : Bool
  renderScheduled : Bool
  framesRequested : Nat

/-- JS `Set.add`: append the path unless it is already present. -/
def insertP (cs : List (List String)) (p : List String) : List (List String) :=
  if p ∈ cs then cs else cs ++ [p]

/-- Renderer.queueRender (renderer.js lines 17-21): a no-op while a flush
is pending, otherwise set the token and request one animation frame. -/
def queueRender (c : CompState) : CompState :=
  if c.renderScheduled then c
  else { c with renderScheduled := true, framesRequested := c.framesRequested + 1 }

/-- The `pathToAdd` computation of StateManager._notifyChange: the given
base path when one was passed (the set/delete traps pass the container's
path, possibly the empty root path, which is falsy as a string), else the
parent of a dotted specific path, else the specific path itself. -/
def parentToAdd (specific : List String) (base : Option (List String)) : List String :=
  match base with
  | some bp => bp
  | none => if 2 ≤ specific.length then specific.dropLast else specific

/-- The `_changedProps` additions of one `_notifyChange` call: the specific
path always, then `pathToAdd` when it is non-empty (the empty string is falsy) and
distinct from the specific path, or the specific path again when
`pathToAdd` is empty and the specific path is not. -/
def addPaths (cs : List (List String)) (specific pathToAdd : List String) :
    List (List String) :=
  if pathToAdd ≠ [] ∧ pathToAdd ≠ specific then
    insertP (insertP cs specific) pathToAdd
  else if pathToAdd = [] ∧ specific ≠ [] then
    insertP (insertP cs specific) specific
  else insertP cs specific

/-- The final step of `_notifyChange`:
`if (this._isReactive && this.component?.renderer) queueRender()`. -/
def queueRenderIfReactive (c : CompState) : CompState :=
  if c.isReactive && c.rendererPresent then queueRender c else c

/-- StateManager._notifyChange: record the specific path, record
`pathToAdd` when it is non-empty and distinct, and queue a render when the
store is reactive and the component still has a renderer. -/
def notifyChange (c : CompState) (specific : List String)
    (base : Option (List String)) : CompState :=
  queueRenderIfReactive
    { c with changedProps :=
        addPaths c.changedProps specific (parentToAdd specific base) }

/-- The set of paths one `_notifyChange` call adds (as a list; the branch
that re-adds an already-added top-level specific path contributes nothing
new). -/
def recordedPaths (specific : List String) (base : Option (List String)) :
    List (List String) :=
  let pathToAdd := parentToAdd specific base
  if pathToAdd ≠ [] ∧ pathToAdd ≠ specific then [specific, pathToAdd]
  else [specific]

/-- The set trap of the reactive proxy sitting at `containerPath`, handling
the write `state.<containerPath>.<k> = v`: skip when `Object.is` finds the
value unchanged, otherwise perform the raw write and notify with the fully
qualified path and the container's path. -/
def stateSet (c : CompState) (containerPath : List String) (k : String)
    (v : Value) : Option CompState :=
  (getPath c.raw containerPath).bind (fun container =>
    if Object_is (getPropD container k) v then some c
    else
      (setPropV container k v).bind (fun container2 =>
        (replaceAt c.raw containerPath container2).map (fun raw2 =>
          notifyChange { c with raw := raw2 } (containerPath ++ [k])
            (some containerPath))))

/-- The deleteProperty trap: a no-op when the property does not exist,
otherwise perform the raw deletion and notify as the set trap does. -/
def stateDelete (c : CompState) (containerPath : List String) (k : String) :
    Option CompState :=
  (getPath c.raw containerPath).bind (fun container =>
    if hasProp container k then
      (delPropV container k).bind (fun container2 =>
        (replaceAt c.raw containerPath container2).map (fun raw2 =>
          notifyChange { c with raw := raw2 } (containerPath ++ [k])
            (some containerPath)))
    else some c)

/-- The wrapper the get trap returns for an intercepted mutating array
method: apply the raw method `m` to the raw sequence, notify with the
sequence's own path and no base path, and pass the method's own return
value through. -/
def arrayMutate (c : CompState) (arrPath : List String)
    (m : List Value → List Value × Value) : Option (CompState × Value) :=
  (getPath c.raw arrPath).bind (fun node =>
    match node with
    | Value.arr es =>
      (replaceAt c.raw arrPath (Value.arr (m es).1)).map (fun raw2 =>
        (notifyChange { c with raw := raw2 } arrPath none, (m es).2))
    | _ => none)

/-- StateManager.setState: assign every pair through the root proxy's set
trap. -/
def setStateSM (c : CompState) (kvs : List (String × Value)) :
    Option CompState :=
  kvs.foldlM (fun acc kv => stateSet acc [] kv.1 kv.2) c

theorem lookupField_setField (fs : List (String × Value)) (k : String) (v : Value) :
    lookupField (setField fs k v) k = some v := by
  induction fs with
  | nil => simp [setField, lookupField]
  | cons kv fs ih =>
    by_cases h : kv.1 = k
    · simp [setField, h, lookupField]
    · simp [setField, h, lookupField, ih]

theorem getElem?_set_self_list (es : List Value) (i : Nat) (x : Value)
    (h : i < es.length) : (es.set i x)[i]? = some x := by
  induction es generalizing i with
  | nil => simp at h
  | cons e es ih =>
    cases i with
    | zero => simp [List.set]
    | succ n =>
      simp only [List.set, List.getElem?_cons_succ]
      exact ih n (by simpa using h)

theorem setPropV_of_getProp {v c : Value} {k : String}
    (h : getProp v k = some c) (x : Value) :
    ∃ v2, setPropV v k x = some v2 ∧ getProp v2 k = some x := by
  cases v with
  | prim p => simp [getProp] at h
  | obj fs =>
    refine ⟨Value.obj (setField fs k x), rfl, ?_⟩
    simp [getProp, lookupField_setField]
  | arr es =>
    simp only [getProp] at h
    cases hk : k.toNat? with
    | none => rw [hk] at h; simp at h
    | some i =>
      rw [hk] at h
      simp only at h
      have hi : i < es.length := by
        cases hlt : Nat.decLt i es.length with
        | isTrue ht => exact ht
        | isFalse hf =>
          exfalso
          rw [List.getElem?_eq_none (by omega)] at h
          exact Option.noConfusion h
      refine ⟨Value.arr (es.set i x), ?_, ?_⟩
      · simp [setPropV, hk, hi]
      · simp only [getProp, hk]
        exact getElem?_set_self_list es i x hi

theorem replaceAt_getPath {v w : Value} {p : List String}
    (h : getPath v p = some w) (x : Value) :
    ∃ v2, replaceAt v p x = some v2 ∧ getPath v2 p = some x := by
  induction p generalizing v with
  | nil => exact ⟨x, rfl, rfl⟩
  | cons k ks ih =>
    simp only [getPath] at h
    cases hg : getProp v k with
    | none => rw [hg] at h; exact absurd h (by simp)
    | some c =>
      rw [hg] at h
      simp only at h
      obtain ⟨c2, hc2, hc2get⟩ := ih h
      obtain ⟨v2, hv2, hv2get⟩ := setPropV_of_getProp hg c2
      refine ⟨v2, ?_, ?_⟩
      · simp [replaceAt, hg, hc2, hv2]
      · simp [getPath, hv2get, hc2get]

theorem mem_insertP {cs : List (List String)} {p q : List String} :
    q ∈ insertP cs p ↔ q ∈ cs ∨ q = p := by
  unfold insertP
  by_cases h : p ∈ cs
  · simp only [h, if_true]
    constructor
    · exact fun hq => Or.inl hq
    · rintro (hq | rfl)
      · exact hq
      · exact h
  · simp [h, List.mem_append]

theorem queueRender_changedProps (c : CompState) :
    (queueRender c).changedProps = c.changedProps := by
  unfold queueRender
  by_cases h : c.renderScheduled <;> simp [h]

theorem queueRender_noop (c : CompState) (h : c.renderScheduled = true) :
    queueRender c = c := by
  simp [queueRender, h]

theorem mem_addPaths {cs : List (List String)} {s pa q : List String} :
    q ∈ addPaths cs s pa ↔
      q ∈ cs ∨ q = s ∨ (pa ≠ [] ∧ pa ≠ s ∧ q = pa) := by
  unfold addPaths
  by_cases h1 : pa ≠ [] ∧ pa ≠ s
  · rw [if_pos h1]
    simp only [mem_insertP]
    tauto
  · rw [if_neg h1]
    by_cases h2 : pa = [] ∧ s ≠ []
    · rw [if_pos h2]
      simp only [mem_insertP]
      tauto
    · rw [if_neg h2]
      simp only [mem_insertP]
      tauto

theorem mem_recordedPaths {s q : List String} {b : Option (List String)} :
    q ∈ recordedPaths s b ↔
      q = s ∨ (parentToAdd s b ≠ [] ∧ parentToAdd s b ≠ s ∧
        q = parentToAdd s b) := by
  unfold recordedPaths
  by_cases h1 : parentToAdd s b ≠ [] ∧ parentToAdd s b ≠ s
  · rw [if_pos h1]
    simp only [List.mem_cons, List.mem_singleton, List.not_mem_nil, or_false]
    tauto
  · rw [if_neg h1]
    simp only [List.mem_singleton]
    tauto

theorem queueRenderIfReactive_changedProps (c : CompState) :
    (queueRenderIfReactive c).changedProps = c.changedProps := by
  unfold queueRenderIfReactive
  by_cases hr : (c.isReactive && c.rendererPresent) = true
  · rw [if_pos hr, queueRender_changedProps]
  · rw [if_neg hr]

theorem notifyChange_mem (c : CompState) (s : List String)
    (b : Option (List String)) (q : List String) :
    q ∈ (notifyChange c s b).changedProps ↔
      q ∈ c.changedProps ∨ q ∈ recordedPaths s b := by
  unfold notifyChange
  rw [queueRenderIfReactive_changedProps]
  simp only [mem_addPaths, mem_recordedPaths]

theorem notifyChange_flags (c : CompState) (s : List String)
    (b : Option (List String)) :
    (notifyChange c s b).isReactive = c.isReactive ∧
      (notifyChange c s b).rendererPresent = c.rendererPresent ∧
      (notifyChange c s b).isDestroyed = c.isDestroyed ∧
      (notifyChange c s b).raw = c.raw := by
  unfold notifyChange queueRenderIfReactive queueRender
  by_cases hr : ((c.isReactive && c.rendererPresent) = true)
  · rw [if_pos hr]
    by_cases hs : (c.renderScheduled = true)
    · rw [if_pos hs]
      exact ⟨rfl, rfl, rfl, rfl⟩
    · rw [if_neg hs]
      exact ⟨rfl, rfl, rfl, rfl⟩
  · rw [if_neg hr]
    exact ⟨rfl, rfl, rfl, rfl⟩

theorem notifyChange_scheduled (c : CompState) (s : List String)
    (b : Option (List String)) (hr : c.isReactive = true)
    (hp : c.rendererPresent = true) :
    (notifyChange c s b).renderScheduled = true ∧
      (notifyChange c s b).framesRequested =
        (if c.renderScheduled then c.framesRequested
          else c.framesRequested + 1) := by
  unfold notifyChange queueRenderIfReactive queueRender
  rw [if_pos (by simp [hr, hp])]
  by_cases hs : (c.renderScheduled = true)
  · rw [if_pos hs, if_pos hs]
    exact ⟨hs, rfl⟩
  · rw [if_neg hs, if_neg hs]
    exact ⟨rfl, rfl⟩

/-- One effective state mutation, seen at the change-notification layer:
every set, delete and intercepted array-method call that actually changes
state funnels into exactly one `_notifyChange(specific, base)` call (see
`stateSet`, `stateDelete`, `arrayMutate`). -/
def applyMuts (c : CompState)
    (ms : List (List String × Option (List String))) : CompState :=
  ms.foldl (fun a m => notifyChange a m.1 m.2) c

theorem applyMuts_scheduled (ms : List (List String × Option (List String))) :
    ∀ c : CompState, c.isReactive = true → c.rendererPresent = true →
      c.renderScheduled = true →
      (applyMuts c ms).renderScheduled = true ∧
        (applyMuts c ms).framesRequested = c.framesRequested := by
  induction ms with
  | nil => intro c _ _ hs; exact ⟨hs, rfl⟩
  | cons m rest ih =>
    intro c hr hp hs
    have hflags := notifyChange_flags c m.1 m.2
    have hsched := notifyChange_scheduled c m.1 m.2 hr hp
    have hstep := ih (notifyChange c m.1 m.2)
      (by rw [hflags.1, hr]) (by rw [hflags.2.1, hp]) hsched.1
    refine ⟨hstep.1, ?_⟩
    rw [show applyMuts c (m :: rest) = applyMuts (notifyChange c m.1 m.2) rest
      from rfl, hstep.2, hsched.2, hs]
    simp

theorem applyMuts_mem (ms : List (List String × Option (List String))) :
    ∀ (c : CompState) (q : List String),
      q ∈ (applyMuts c ms).changedProps ↔
        q ∈ c.changedProps ∨ ∃ m ∈ ms, q ∈ recordedPaths m.1 m.2 := by
  induction ms with
  | nil => intro c q; simp [applyMuts]
  | cons m rest ih =>
    intro c q
    rw [show applyMuts c (m :: rest) = applyMuts (notifyChange c m.1 m.2) rest
      from rfl, ih, notifyChange_mem]
    simp only [List.mem_cons]
    constructor
    · rintro ((hq | hq) | ⟨m', hm', hq⟩)
      · exact Or.inl hq
      · exact Or.inr ⟨m, Or.inl rfl, hq⟩
      · exact Or.inr ⟨m', Or.inr hm', hq⟩
    · rintro (hq | ⟨m', hm' | hm', hq⟩)
      · exact Or.inl (Or.inl hq)
      · exact Or.inl (Or.inr (by rw [hm'] at hq; exact hq))
      · exact Or.inr ⟨m', hm', hq⟩

/-- `prop.split('.')[0]`: the top-level segment of a changed path. -/
def topSeg (p : List String) : String :=
  p.headD ""

/-- The DOM-visible actions of one flush: the full render writing the root
element's content, a selective render-map entry writing its target's
content, and a `component._updateRefs()` request to re-index the
reference-marked descendants. -/
inductive Act where
  | fullRender
  | selRender (key : String)
  | updateRefs
deriving DecidableEq

/-- Renderer.render: full render, then refresh the element-reference
index. -/
def fullRenderActs : List Act :=
  [Act.fullRender, Act.updateRefs]

/-- Whether an action is a render action (full or selective), as opposed
to a reference-index refresh. -/
def isRenderAct : Act → Bool
  | Act.fullRender => true
  | Act.selRender _ => true
  | Act.updateRefs => false

/-- The per-path loop of Renderer._handleRender once no full render is
needed: invoke each changed path's mapped function (keyed by the path's
top-level segment), refreshing the reference index after each one. -/
def dispatchActs (rm : List String) (changed : List (List String)) : List Act :=
  changed.foldr
    (fun p acc =>
      if rm.contains (topSeg p) then
        Act.selRender (topSeg p) :: Act.updateRefs :: acc
      else acc)
    []

/-- Renderer._handleRender (renderer.js lines 46-71), given the keys of the
component's render map and the changed paths of this flush: an empty map
forces the full render, any changed path with an unmapped top-level
segment forces the full render, otherwise each changed path's mapped
function runs.  (The `!changedProps` null guard of the source is
unreachable from `queueRender`, which always passes a set.) -/
def handleRenderT (rm : List String) (changed : List (List String)) : List Act :=
  if rm.isEmpty then fullRenderActs
  else if changed.any (fun p => !rm.contains (topSeg p)) then fullRenderActs
  else dispatchActs rm changed

/-- The should-render policy of the frame callback:
`!renderProps || changed.some(p => renderProps.includes(p.split('.')[0]))`. -/
def shouldRenderB (rp : Option (List String)) (changed : List (List String)) :
    Bool :=
  match rp with
  | none => true
  | some l => changed.any (fun p => l.contains (topSeg p))

/-- The body of the `requestAnimationFrame` callback queued by
Renderer.queueRender (renderer.js lines 21-39): unless the component is
destroyed, read and clear the change set, apply the should-render policy
and dispatch; in every case the pending-render token ends up cleared.
Returns the post-flush component state and the trace of render actions. -/
def frameCallbackT (rm : List String) (rp : Option (List String))
    (c : CompState) : CompState × List Act :=
  if c.isDestroyed then ({ c with renderScheduled := false }, [])
  else
    ({ c with changedProps := [], renderScheduled := false },
      if shouldRenderB rp c.changedProps then handleRenderT rm c.changedProps
      else [])

/-- Renderer._handleRender with the render and partial-render functions
modelled as state transformers, so that a mutation performed by user
render code during the flush is observable.  `renderFn` stands for any of
the user-supplied render functions (the token bookkeeping under scrutiny
is identical for all of them). -/
def handleRenderWith (rm : List String) (renderFn : CompState → CompState)
    (changed : List (List String)) (c : CompState) : CompState :=
  if rm.isEmpty then renderFn c
  else if changed.any (fun p => !rm.contains (topSeg p)) then renderFn c
  else changed.foldl
    (fun acc p => if rm.contains (topSeg p) then renderFn acc else acc) c

/-- The frame callback with user render functions as state transformers.
Mirrors the source exactly: `_renderScheduled` is assigned `false` only
AFTER `_handleRender` has returned — the token is not cleared before the
render functions run. -/
def frameCallbackWith (rm : List String) (rp : Option (List String))
    (renderFn : CompState → CompState) (c : CompState) : CompState :=
  let c1 :=
    if c.isDestroyed then c
    else
      if shouldRenderB rp c.changedProps then
        handleRenderWith rm renderFn c.changedProps
          { c with changedProps := [] }
      else { c with changedProps := [] }
  { c1 with renderScheduled := false }

/-- The lifecycle-relevant slice of a Component (stelar.js): the
`isDestroyed` / `isConnected` / `hasRenderedInitially` flags, the
`renderOnCreate` option, and counters for how often the connect hook, the
disconnect hook and the initial render have fired. -/
structure CompR where
  isDestroyed : Bool
  isConnected : Bool
  hasRenderedInitially : Bool
  renderOnCreate : Bool
  connectedCalls : Nat
  disconnectedCalls : Nat
  initialRenders : Nat
deriving DecidableEq

/-- Component._handleConnected (stelar.js lines 176-188): bail out when
destroyed or already connected; otherwise mark connected, fire the connect
hook, and perform the one initial render if render-on-create is enabled
and it has not happened yet. -/
def handleConnected (c : CompR) : CompR :=
  if c.isDestroyed || c.isConnected then c
  else
    let c1 :=
      { c with
          isConnected := true
          connectedCalls := c.connectedCalls + 1 }
    if c1.renderOnCreate && !c1.hasRenderedInitially then
      { c1 with
          hasRenderedInitially := true
          initialRenders := c1.initialRenders + 1 }
    else c1

/-- Component.destroy's effect on the lifecycle flags (stelar.js lines
230-256): idempotent; marks the component destroyed and disconnected. -/
def destroyR (c : CompR) : CompR :=
  if c.isDestroyed then c
  else
    { c with
        isDestroyed := true
        isConnected := false }

/-- Component._handleDisconnected (stelar.js lines 194-201): bail out when
destroyed or never connected; otherwise mark disconnected, fire the
disconnect hook, then destroy. -/
def handleDisconnected (c : CompR) : CompR :=
  if c.isDestroyed || !c.isConnected then c
  else
    destroyR
      { c with
          isConnected := false
          disconnectedCalls := c.disconnectedCalls + 1 }

/-- The Component constructor's lifecycle effect: fresh flags, then a
synchronous `_handleConnected` when the element is already in the
document. -/
def construct (inDoc : Bool) (roc : Bool) : CompR :=
  let c : CompR :=
    { isDestroyed := false
      isConnected := false
      hasRenderedInitially := false
      renderOnCreate := roc
      connectedCalls := 0
      disconnectedCalls := 0
      initialRenders := 0 }
  if inDoc then handleConnected c else c

/-- The externally observed, coalesced lifecycle signals a component can
receive after construction, plus explicit teardown. -/
inductive Ev where
  | attach
  | detach
  | teardown
deriving DecidableEq

/-- Deliver one lifecycle signal. -/
def stepEv (c : CompR) : Ev → CompR
  | Ev.attach => handleConnected c
  | Ev.detach => handleDisconnected c
  | Ev.teardown => destroyR c

/-- Deliver a sequence of lifecycle signals. -/
def runEv (c : CompR) (evs : List Ev) : CompR :=
  evs.foldl stepEv c

/-- The render-once bookkeeping invariant tying `initialRenders` to
`hasRenderedInitially`. -/
def renderOnceInv (c : CompR) : Prop :=
  c.initialRenders = (if c.hasRenderedInitially then 1 else 0)

theorem destroyR_fields (c : CompR) :
    (destroyR c).hasRenderedInitially = c.hasRenderedInitially ∧
      (destroyR c).initialRenders = c.initialRenders := by
  unfold destroyR
  by_cases h : (c.isDestroyed = true)
  · rw [if_pos h]; exact ⟨rfl, rfl⟩
  · rw [if_neg h]; exact ⟨rfl, rfl⟩

theorem handleDisconnected_fields (c : CompR) :
    (handleDisconnected c).hasRenderedInitially = c.hasRenderedInitially ∧
      (handleDisconnected c).initialRenders = c.initialRenders := by
  unfold handleDisconnected
  by_cases h0 : ((c.isDestroyed || !c.isConnected) = true)
  · rw [if_pos h0]; exact ⟨rfl, rfl⟩
  · rw [if_neg h0]
    exact destroyR_fields _

theorem renderOnceInv_handleConnected (c : CompR) (h : renderOnceInv c) :
    renderOnceInv (handleConnected c) := by
  unfold handleConnected
  by_cases h0 : ((c.isDestroyed || c.isConnected) = true)
  · rw [if_pos h0]; exact h
  · rw [if_neg h0]
    by_cases h1 : ((c.renderOnCreate && !c.hasRenderedInitially) = true)
    · rw [if_pos h1]
      have hr : c.hasRenderedInitially = false := by
        cases hh : c.hasRenderedInitially
        · rfl
        · exfalso; rw [hh] at h1; simp at h1
      have h0' : c.initialRenders = 0 := by rw [h, hr]; simp
      unfold renderOnceInv
      simp [h0']
    · rw [if_neg h1]
      exact h

theorem renderOnceInv_step (c : CompR) (e : Ev) (h : renderOnceInv c) :
    renderOnceInv (stepEv c e) := by
  cases e with
  | attach => exact renderOnceInv_handleConnected c h
  | detach =>
    unfold renderOnceInv at h ⊢
    simp only [stepEv, (handleDisconnected_fields c).1,
      (handleDisconnected_fields c).2]
    exact h
  | teardown =>
    unfold renderOnceInv at h ⊢
    simp only [stepEv, (destroyR_fields c).1, (destroyR_fields c).2]
    exact h

theorem renderOnceInv_run (evs : List Ev) :
    ∀ c : CompR, renderOnceInv c → renderOnceInv (runEv c evs) := by
  induction evs with
  | nil => intro c h; exact h
  | cons e rest ih =>
    intro c h
    exact ih (stepEv c e) (renderOnceInv_step c e h)

theorem renderOnceInv_construct (inDoc roc : Bool) :
    renderOnceInv (construct inDoc roc) := by
  cases inDoc <;> cases roc <;> (unfold renderOnceInv; rfl)

theorem rendered_step (c : CompR) (e : Ev)
    (h : c.hasRenderedInitially = true) :
    (stepEv c e).hasRenderedInitially = true := by
  cases e with
  | attach =>
    unfold stepEv handleConnected
    by_cases h0 : ((c.isDestroyed || c.isConnected) = true)
    · rw [if_pos h0]; exact h
    · rw [if_neg h0]
      by_cases h1 : ((c.renderOnCreate && !c.hasRenderedInitially) = true)
      · rw [if_pos h1]
      · rw [if_neg h1]; exact h
  | detach =>
    show (handleDisconnected c).hasRenderedInitially = true
    rw [(handleDisconnected_fields c).1]
    exact h
  | teardown =>
    show (destroyR c).hasRenderedInitially = true
    rw [(destroyR_fields c).1]
    exact h

theorem rendered_run (evs : List Ev) :
    ∀ c : CompR, c.hasRenderedInitially = true →
      (runEv c evs).hasRenderedInitially = true := by
  induction evs with
  | nil => intro c h; exact h
  | cons e rest ih =>
    intro c h
    exact ih (stepEv c e) (rendered_step c e h)

theorem construct_attach_rendered (inDoc : Bool) :
    (handleConnected (construct inDoc true)).hasRenderedInitially = true := by
  cases inDoc <;> rfl

/-- The component's public surface after the teardown step of
Component.destroy: `this.stateManager` and `this.state` are both nulled,
so `core = none` stands for both references being null. -/
structure Shell where
  isDestroyed : Bool
  core : Option CompState

/-- Component.destroy on the public surface: idempotent; sets the
destroyed flag and nulls the state manager and state references. -/
def destroyShell (s : Shell) : Shell :=
  if s.isDestroyed then s
  else { isDestroyed := true, core := none }

/-- Component.setState: `this.stateManager.setState(newState)`.  On a
destroyed component `this.stateManager` is null, so the property access
throws a TypeError before anything else happens. -/
def setStateShell (s : Shell) (kvs : List (String × Value)) :
    Except String Shell :=
  match s.core with
  | none => Except.error "TypeError: stateManager is null"
  | some cs =>
    match setStateSM cs kvs with
    | some cs2 => Except.ok { s with core := some cs2 }
    | none => Except.error "set failed"

/-- Assignment through the component's state view,
`component.state.k = v`.  On a destroyed component `this.state` is null,
so the assignment throws a TypeError before anything else happens. -/
def stateAssignShell (s : Shell) (k : String) (v : Value) :
    Except String Shell :=
  match s.core with
  | none => Except.error "TypeError: state is null"
  | some cs =>
    match stateSet cs [] k v with
    | some cs2 => Except.ok { s with core := some cs2 }
    | none => Except.error "set failed"

theorem frameCallbackT_acts (rm : List String) (rp : Option (List String))
    (c : CompState) (hd : c.isDestroyed = false) :
    (frameCallbackT rm rp c).2 =
      if shouldRenderB rp c.changedProps then handleRenderT rm c.changedProps
      else [] := by
  unfold frameCallbackT
  rw [if_neg (by simp [hd])]

theorem dispatchActs_cons (rm : List String) (p : List String)
    (ps : List (List String)) :
    dispatchActs rm (p :: ps) =
      if rm.contains (topSeg p) then
        Act.selRender (topSeg p) :: Act.updateRefs :: dispatchActs rm ps
      else dispatchActs rm ps := rfl

theorem dispatchActs_all_mapped (rm : List String) (k : String) :
    ∀ changed : List (List String),
      (∀ p ∈ changed, rm.contains (topSeg p) = true) →
      Act.fullRender ∉ dispatchActs rm changed ∧
        (dispatchActs rm changed).count (Act.selRender k) =
          changed.countP (fun p => topSeg p == k) := by
  intro changed
  induction changed with
  | nil =>
    intro _
    constructor
    · simp [dispatchActs]
    · simp [dispatchActs]
  | cons p ps ih =>
    intro hall
    have hp := hall p (List.mem_cons_self p ps)
    have ihps := ih (fun q hq => hall q (List.mem_cons_of_mem p hq))
    rw [dispatchActs_cons, if_pos hp]
    constructor
    · intro hmem
      rcases List.mem_cons.mp hmem with h1 | hmem2
      · exact Act.noConfusion h1
      · rcases List.mem_cons.mp hmem2 with h2 | hmem3
        · exact Act.noConfusion h2
        · exact ihps.1 hmem3
    · rw [List.count_cons, List.count_cons, List.countP_cons, ihps.2]
      by_cases hk : topSeg p = k
      · simp [hk]
      · have h1 : (Act.selRender (topSeg p) == Act.selRender k) = false := by
          simp [hk]
        have h2 : (topSeg p == k) = false := by simp [hk]
        simp [h1, h2]

theorem fullRenderActs_refresh (i : Nat) (a : Act)
    (h : fullRenderActs[i]? = some a) (ha : isRenderAct a = true) :
    fullRenderActs[i + 1]? = some Act.updateRefs := by
  match i with
  | 0 => rfl
  | 1 =>
    exfalso
    have : a = Act.updateRefs := by
      have h1 : fullRenderActs[1]? = some Act.updateRefs := rfl
      rw [h1] at h
      exact (Option.some.inj h).symm
    rw [this] at ha
    exact Bool.noConfusion ha
  | n + 2 =>
    exfalso
    have h2 : fullRenderActs[n + 2]? = none := by
      simp [fullRenderActs]
    rw [h2] at h
    exact Option.noConfusion h

theorem dispatchActs_refresh (rm : List String) :
    ∀ (changed : List (List String)) (i : Nat) (a : Act),
      (dispatchActs rm changed)[i]? = some a → isRenderAct a = true →
      (dispatchActs rm changed)[i + 1]? = some Act.updateRefs := by
  intro changed
  induction changed with
  | nil =>
    intro i a h _
    simp [dispatchActs] at h
  | cons p ps ih =>
    intro i a h ha
    by_cases hc : rm.contains (topSeg p) = true
    · rw [dispatchActs_cons, if_pos hc] at h ⊢
      match i with
      | 0 => simp
      | 1 =>
        exfalso
        have h1 : (Act.selRender (topSeg p) :: Act.updateRefs ::
            dispatchActs rm ps)[1]? = some Act.updateRefs := by simp
        have ha2 : Act.updateRefs = a := Option.some.inj (h1.symm.trans h)
        rw [← ha2] at ha
        exact Bool.noConfusion ha
      | n + 2 =>
        have hsh : (Act.selRender (topSeg p) :: Act.updateRefs ::
            dispatchActs rm ps)[n + 2]? = (dispatchActs rm ps)[n]? := by
          simp
        have hsh2 : (Act.selRender (topSeg p) :: Act.updateRefs ::
            dispatchActs rm ps)[n + 3]? = (dispatchActs rm ps)[n + 1]? := by
          simp
        rw [hsh] at h
        rw [hsh2]
        exact ih n a h ha
    · rw [dispatchActs_cons, if_neg hc] at h ⊢
      exact ih i a h ha

theorem handleRenderT_refresh (rm : List String)
    (changed : List (List String)) (i : Nat) (a : Act)
    (h : (handleRenderT rm changed)[i]? = some a)
    (ha : isRenderAct a = true) :
    (handleRenderT rm changed)[i + 1]? = some Act.updateRefs := by
  unfold handleRenderT at h ⊢
  by_cases h1 : (rm.isEmpty = true)
  · rw [if_pos h1] at h ⊢
    exact fullRenderActs_refresh i a h ha
  · rw [if_neg h1] at h ⊢
    by_cases h2 : ((changed.any fun p => !rm.contains (topSeg p)) = true)
    · rw [if_pos h2] at h ⊢
      exact fullRenderActs_refresh i a h ha
    · rw [if_neg h2] at h ⊢
      exact dispatchActs_refresh rm changed i a h ha

/-- C1: for every sequence of N >= 1 effective state mutations issued on
one component before the next frame boundary (each funnelling through
`_notifyChange`), exactly one animation-frame flush is requested, a flush
is pending afterwards, and the change set that the pending flush will read
is exactly the union of the paths recorded by those mutations; moreover
calling `queueRender` while a flush is already pending is a no-op. -/
theorem c1_single_flush_union (c : CompState)
    (ms : List (List String × Option (List String)))
    (hne : ms ≠ []) (hsched : c.renderScheduled = false)
    (hcs : c.changedProps = []) (hr : c.isReactive = true)
    (hp : c.rendererPresent = true) :
    (applyMuts c ms).framesRequested = c.framesRequested + 1 ∧
      (applyMuts c ms).renderScheduled = true ∧
      (∀ q : List String, q ∈ (applyMuts c ms).changedProps ↔
        ∃ m ∈ ms, q ∈ recordedPaths m.1 m.2) ∧
      (∀ d : CompState, d.renderScheduled = true → queueRender d = d) := by
  obtain ⟨m, rest, rfl⟩ : ∃ m rest, ms = m :: rest := by
    cases ms with
    | nil => exact absurd rfl hne
    | cons m rest => exact ⟨m, rest, rfl⟩
  have hflags := notifyChange_flags c m.1 m.2
  have hsched1 := notifyChange_scheduled c m.1 m.2 hr hp
  have happ := applyMuts_scheduled rest (notifyChange c m.1 m.2)
    (by rw [hflags.1]; exact hr) (by rw [hflags.2.1]; exact hp) hsched1.1
  have hstep : applyMuts c (m :: rest) =
      applyMuts (notifyChange c m.1 m.2) rest := rfl
  refine ⟨?_, ?_, ?_, ?_⟩
  · rw [hstep, happ.2, hsched1.2]
    simp [hsched]
  · rw [hstep]
    exact happ.1
  · intro q
    rw [applyMuts_mem, hcs]
    simp
  · intro d hd
    exact queueRender_noop d hd

/-- A quiescent reactive component: empty change set, no pending flush. -/
def c1Input : CompState :=
  { raw := Value.obj [("count", Value.prim (Prim.num 0))]
    changedProps := []
    isReactive := true
    rendererPresent := true
    isDestroyed := false
    renderScheduled := false
    framesRequested := 0 }

/-- Witness for C1: two mutations before the frame boundary request
exactly one frame. -/
theorem c1_witness :
    (applyMuts c1Input
      [(["count"], some []), (["user", "name"], some ["user"])]).framesRequested
      = c1Input.framesRequested + 1 :=
  (c1_single_flush_union c1Input
    [(["count"], some []), (["user", "name"], some ["user"])]
    (List.cons_ne_nil _ _) rfl rfl rfl rfl).1

/-- A component with one pending flush over the change set
`count`. -/
def c2Input : CompState :=
  { raw := Value.obj [("count", Value.prim (Prim.num 0))]
    changedProps := [["count"]]
    isReactive := true
    rendererPresent := true
    isDestroyed := false
    renderScheduled := true
    framesRequested := 1 }

/-- A render function that performs a state mutation while it runs:
`this.state.count = 1` inside `render()` funnels into
a notify-change call on `count` with the empty base path. -/
def c2MutatingRender (s : CompState) : CompState :=
  notifyChange s ["count"] (some [])

/-- A render function that records whether the pending-flush token was
still set at the moment it was invoked, by writing the sentinel 777 into
the frame counter exactly when it observes `_renderScheduled = true`. -/
def c2ProbeRender (s : CompState) : CompState :=
  if s.renderScheduled then { s with framesRequested := 777 } else s

/-- C2, evaluated against the code at the failing input: the claim is
that the pending-flush token is cleared before any render function runs,
so a mutation during the render schedules a new flush.  The source
(renderer.js line 38) instead assigns `_renderScheduled = false` only
after `_handleRender` returns: the probe render observes the token still
set (sentinel 777 shows up), and the flush whose render mutates state
requests no new animation frame — `framesRequested` stays 1 and the
recorded path `count` is left pending with no flush scheduled, while
the token ends up false. -/
theorem c2_token_cleared_late :
    (frameCallbackWith [] none c2ProbeRender c2Input).framesRequested
        = 777 ∧
      (frameCallbackWith [] none c2MutatingRender c2Input).framesRequested
        = 1 ∧
      (frameCallbackWith [] none c2MutatingRender c2Input).renderScheduled
        = false ∧
      (frameCallbackWith [] none c2MutatingRender c2Input).changedProps
        = [["count"]] := by
  refine ⟨rfl, rfl, rfl, rfl⟩

/-- A pending flush whose change set holds the two paths a nested write
under `x` records: `x.a` and its parent `x`. -/
def c3Input : CompState :=
  { raw := Value.obj []
    changedProps := [["x"], ["x", "a"]]
    isReactive := true
    rendererPresent := true
    isDestroyed := false
    renderScheduled := true
    framesRequested := 1 }

/-- Counterexample to C3 as stated: with render map `{x: fx}` and
renderProps unset, a flush whose only changed top-level key is `x` (the
change set after mutating `x.a` holds `x.a` and `x`, both with top
segment `x`) invokes `fx` twice, not exactly once — the source loop runs
the mapped function once per changed path, not once per changed key. -/
theorem c3_counterexample :
    (c3Input.changedProps.all (fun p => topSeg p == "x")) = true ∧
      (["x"] : List String).contains "x" = true ∧
      ((frameCallbackT ["x"] none c3Input).2.count (Act.selRender "x")) = 2 ∧
      ¬ ((frameCallbackT ["x"] none c3Input).2.count (Act.selRender "x"))
          = 1 := by
  refine ⟨rfl, rfl, rfl, by decide⟩

/-- C3 amended: for every flush with a non-empty render map and
renderProps unset, if every changed path's top-level segment is mapped,
the mapped function of key `k` is invoked once per changed path whose
top-level segment is `k` (hence exactly once when exactly one recorded
path lies under `x`) and the full render is never invoked; if the changed
paths include any unmapped top-level segment, the flush is exactly one
full render followed by one reference refresh, so no mapped function is
invoked. -/
theorem c3_amended (rm : List String) (c : CompState) (k : String)
    (hd : c.isDestroyed = false) (hne : rm.isEmpty = false) :
    ((∀ p ∈ c.changedProps, rm.contains (topSeg p) = true) →
      Act.fullRender ∉ (frameCallbackT rm none c).2 ∧
        ((frameCallbackT rm none c).2.count (Act.selRender k) =
          c.changedProps.countP (fun p => topSeg p == k))) ∧
      ((∃ p ∈ c.changedProps, rm.contains (topSeg p) = false) →
        (frameCallbackT rm none c).2 = fullRenderActs) := by
  have hacts : (frameCallbackT rm none c).2 = handleRenderT rm c.changedProps := by
    rw [frameCallbackT_acts rm none c hd]
    rfl
  rw [hacts]
  constructor
  · intro hall
    have hany : (c.changedProps.any fun p => !rm.contains (topSeg p)) = false := by
      rw [List.any_eq_false]
      intro p hp
      rw [hall p hp]
      simp
    unfold handleRenderT
    rw [if_neg (by rw [hne]; exact Bool.noConfusion),
      if_neg (by rw [hany]; exact Bool.noConfusion)]
    exact dispatchActs_all_mapped rm k c.changedProps hall
  · rintro ⟨p, hp, hcontains⟩
    have hany : (c.changedProps.any fun p => !rm.contains (topSeg p)) = true := by
      rw [List.any_eq_true]
      exact ⟨p, hp, by rw [hcontains]; rfl⟩
    unfold handleRenderT
    rw [if_neg (by rw [hne]; exact Bool.noConfusion), if_pos hany]

/-- A pending flush with a single changed top-level path `x`. -/
def c3wInput : CompState :=
  { raw := Value.obj []
    changedProps := [["x"]]
    isReactive := true
    rendererPresent := true
    isDestroyed := false
    renderScheduled := true
    framesRequested := 1 }

/-- Witness for the amended C3: with map `{x: fx}` and one changed path
`x`, the flush performs no full render. -/
theorem c3_witness :
    Act.fullRender ∉ (frameCallbackT ["x"] none c3wInput).2 :=
  ((c3_amended ["x"] c3wInput "x" rfl rfl).1 (by decide)).1

/-- A pending flush whose only changed path is the top-level `y`. -/
def c4Input : CompState :=
  { raw := Value.obj []
    changedProps := [["y"]]
    isReactive := true
    rendererPresent := true
    isDestroyed := false
    renderScheduled := true
    framesRequested := 1 }

/-- C4: for every flush of a non-destroyed component, if a renderProps
list is declared then no render action at all happens unless some changed
path's top-level segment is in the list; and with no renderProps
restriction the flush always proceeds to the dispatch step
(`_handleRender`). -/
theorem c4_renderProps_gating (rm : List String) (l : List String)
    (c : CompState) (hd : c.isDestroyed = false) :
    ((c.changedProps.any fun p => l.contains (topSeg p)) = false →
      (frameCallbackT rm (some l) c).2 = []) ∧
      (frameCallbackT rm none c).2 = handleRenderT rm c.changedProps := by
  constructor
  · intro hnone
    rw [frameCallbackT_acts rm (some l) c hd]
    have : shouldRenderB (some l) c.changedProps = false := hnone
    rw [if_neg (by rw [this]; exact Bool.noConfusion)]
  · rw [frameCallbackT_acts rm none c hd]
    rfl

/-- Witness for C4: with renderProps `x` and changed key `y`, the
flush performs no render action at all. -/
theorem c4_witness :
    (frameCallbackT [] (some ["x"]) c4Input).2 = [] :=
  (c4_renderProps_gating [] ["x"] c4Input rfl).1 rfl

/-- C9: in the action trace of any flush, every render action (the full
render or any selective render) is immediately followed by a refresh of
the element-reference index, so each render's refresh happens before the
flush completes. -/
theorem c9_refresh_after_render (rm : List String)
    (rp : Option (List String)) (c : CompState) (i : Nat) (a : Act)
    (h : ((frameCallbackT rm rp c).2)[i]? = some a)
    (ha : isRenderAct a = true) :
    ((frameCallbackT rm rp c).2)[i + 1]? = some Act.updateRefs := by
  unfold frameCallbackT at h ⊢
  by_cases hd : (c.isDestroyed = true)
  · rw [if_pos hd] at h
    simp at h
  · rw [if_neg hd] at h ⊢
    by_cases hs : (shouldRenderB rp c.changedProps = true)
    · rw [if_pos hs] at h ⊢
      exact handleRenderT_refresh rm c.changedProps i a h ha
    · rw [if_neg hs] at h
      simp at h

/-- Witness for C9: a flush that performs a full render refreshes the
reference index right after it. -/
theorem c9_witness :
    ((frameCallbackT [] none c4Input).2)[0 + 1]? = some Act.updateRefs :=
  c9_refresh_after_render [] none c4Input 0 Act.fullRender rfl rfl

/-- C5: after every effective write through the reactive view (set of a
property whose value actually changes, delete of an existing property,
intercepted in-place array mutation), the change set contains the most
specific changed path together with its immediate parent path when the
change is nested, and the top-level path itself for a top-level change. -/
theorem c5_path_propagation :
    (∀ (c : CompState) (p : List String) (k : String) (v : Value)
        (container : Value) (c2 : CompState),
      getPath c.raw p = some container →
      Object_is (getPropD container k) v = false →
      stateSet c p k v = some c2 →
      (p ++ [k]) ∈ c2.changedProps ∧ (p ≠ [] → p ∈ c2.changedProps)) ∧
    (∀ (c : CompState) (p : List String) (k : String)
        (container : Value) (c2 : CompState),
      getPath c.raw p = some container →
      hasProp container k = true →
      stateDelete c p k = some c2 →
      (p ++ [k]) ∈ c2.changedProps ∧ (p ≠ [] → p ∈ c2.changedProps)) ∧
    (∀ (c : CompState) (p : List String)
        (m : List Value → List Value × Value) (es : List Value)
        (c2 : CompState) (ret : Value),
      getPath c.raw p = some (Value.arr es) →
      arrayMutate c p m = some (c2, ret) →
      p ∈ c2.changedProps ∧
        (2 ≤ p.length → p.dropLast ∈ c2.changedProps)) := by
  refine ⟨?_, ?_, ?_⟩
  · intro c p k v container c2 hg hne hset
    unfold stateSet at hset
    rw [hg, Option.some_bind, if_neg (by simp [hne])] at hset
    cases hsp : setPropV container k v with
    | none => rw [hsp] at hset; simp at hset
    | some container2 =>
      rw [hsp, Option.some_bind] at hset
      cases hra : replaceAt c.raw p container2 with
      | none => rw [hra] at hset; simp at hset
      | some raw2 =>
        rw [hra, Option.map_some'] at hset
        have hc2 : notifyChange { c with raw := raw2 } (p ++ [k]) (some p)
            = c2 := Option.some.inj hset
        subst hc2
        constructor
        · rw [notifyChange_mem]
          right
          rw [mem_recordedPaths]
          left
          rfl
        · intro hpne
          rw [notifyChange_mem]
          right
          rw [mem_recordedPaths]
          right
          have hpa : parentToAdd (p ++ [k]) (some p) = p := rfl
          refine ⟨hpne, ?_, rfl⟩
          rw [hpa]
          intro heq
          have hlen := congrArg List.length heq
          simp only [List.length_append, List.length_cons, List.length_nil]
            at hlen
          omega
  · intro c p k container c2 hg hhas hdel
    unfold stateDelete at hdel
    rw [hg, Option.some_bind, if_pos hhas] at hdel
    cases hdp : delPropV container k with
    | none => rw [hdp] at hdel; simp at hdel
    | some container2 =>
      rw [hdp, Option.some_bind] at hdel
      cases hra : replaceAt c.raw p container2 with
      | none => rw [hra] at hdel; simp at hdel
      | some raw2 =>
        rw [hra, Option.map_some'] at hdel
        have hc2 : notifyChange { c with raw := raw2 } (p ++ [k]) (some p)
            = c2 := Option.some.inj hdel
        subst hc2
        constructor
        · rw [notifyChange_mem]
          right
          rw [mem_recordedPaths]
          left
          rfl
        · intro hpne
          rw [notifyChange_mem]
          right
          rw [mem_recordedPaths]
          right
          have hpa : parentToAdd (p ++ [k]) (some p) = p := rfl
          refine ⟨hpne, ?_, rfl⟩
          rw [hpa]
          intro heq
          have hlen := congrArg List.length heq
          simp only [List.length_append, List.length_cons, List.length_nil]
            at hlen
          omega
  · intro c p m es c2 ret hg hm
    obtain ⟨raw2, hra, hget⟩ := replaceAt_getPath hg (Value.arr (m es).1)
    unfold arrayMutate at hm
    rw [hg, Option.some_bind] at hm
    rw [show (match Value.arr es with
      | Value.arr es =>
        (replaceAt c.raw p (Value.arr (m es).1)).map (fun raw2 =>
          (notifyChange { c with raw := raw2 } p none, (m es).2))
      | _ => none) =
      (replaceAt c.raw p (Value.arr (m es).1)).map (fun raw2 =>
        (notifyChange { c with raw := raw2 } p none, (m es).2)) from rfl,
      hra, Option.map_some'] at hm
    obtain ⟨h1, h2⟩ := Prod.mk.inj (Option.some.inj hm)
    subst h1
    constructor
    · rw [notifyChange_mem]
      right
      rw [mem_recordedPaths]
      left
      rfl
    · intro hlen
      rw [notifyChange_mem]
      right
      rw [mem_recordedPaths]
      right
      have hpa : parentToAdd p none = p.dropLast := by
        unfold parentToAdd
        rw [if_pos hlen]
      refine ⟨?_, ?_, hpa.symm⟩
      · rw [hpa]
        intro h0
        have hl := congrArg List.length h0
        rw [List.length_dropLast] at hl
        simp at hl
        omega
      · rw [hpa]
        intro h0
        have hl := congrArg List.length h0
        rw [List.length_dropLast] at hl
        omega

/-- The component used by the C5 witness, holding `{a: {b: {c: 1}}}`. -/
def c5Input : CompState :=
  { raw := Value.obj [("a", Value.obj [("b",
      Value.obj [("c", Value.prim (Prim.num 1))])])]
    changedProps := []
    isReactive := true
    rendererPresent := true
    isDestroyed := false
    renderScheduled := false
    framesRequested := 0 }

/-- The component after the C5 witness's write `a.b.c = 2`. -/
def c5Out : CompState :=
  { raw := Value.obj [("a", Value.obj [("b",
      Value.obj [("c", Value.prim (Prim.num 2))])])]
    changedProps := [["a", "b", "c"], ["a", "b"]]
    isReactive := true
    rendererPresent := true
    isDestroyed := false
    renderScheduled := true
    framesRequested := 1 }

/-- Witness for C5: writing `a.b.c = 2` records the specific path
`a.b.c`. -/
theorem c5_witness :
    ((["a", "b"] : List String) ++ ["c"]) ∈ c5Out.changedProps :=
  (c5_path_propagation.1 c5Input ["a", "b"] "c" (Value.prim (Prim.num 2))
    (Value.obj [("c", Value.prim (Prim.num 1))]) c5Out rfl rfl rfl).1

/-- C6: assigning a value that `Object.is` finds equal to the current one
(NaN equal to itself included) leaves the component untouched: same state
tree, nothing added to the change set, no flush scheduled. -/
theorem c6_noop_on_unchanged_write (c : CompState) (p : List String)
    (k : String) (v : Value) (container : Value)
    (h1 : getPath c.raw p = some container)
    (h2 : Object_is (getPropD container k) v = true) :
    stateSet c p k v = some c := by
  unfold stateSet
  rw [h1, Option.some_bind, if_pos h2]

/-- The component used by the C6 witness, holding `{x: NaN}`. -/
def c6Input : CompState :=
  { raw := Value.obj [("x", Value.prim Prim.nan)]
    changedProps := []
    isReactive := true
    rendererPresent := true
    isDestroyed := false
    renderScheduled := false
    framesRequested := 0 }

/-- Witness for C6: re-assigning NaN over NaN is a complete no-op. -/
theorem c6_witness :
    stateSet c6Input [] "x" (Value.prim Prim.nan) = some c6Input :=
  c6_noop_on_unchanged_write c6Input [] "x" (Value.prim Prim.nan)
    (Value.obj [("x", Value.prim Prim.nan)]) rfl rfl

/-- C7: an intercepted in-place array-method call applies the method to
the raw underlying sequence (the tree afterwards holds the method's
result at the sequence's path), passes the method's own return value
through unchanged, and records the sequence's own path — the only paths
it can add are the sequence's path and its parent, never an
index-specific path. -/
theorem c7_array_mutation (c c2 : CompState) (ret : Value)
    (p : List String) (es : List Value)
    (m : List Value → List Value × Value)
    (h : getPath c.raw p = some (Value.arr es))
    (hm : arrayMutate c p m = some (c2, ret)) :
    ret = (m es).2 ∧
      getPath c2.raw p = some (Value.arr (m es).1) ∧
      p ∈ c2.changedProps ∧
      (∀ q ∈ c2.changedProps,
        q ∈ c.changedProps ∨ q = p ∨ q = p.dropLast) := by
  obtain ⟨raw2, hra, hget⟩ := replaceAt_getPath h (Value.arr (m es).1)
  unfold arrayMutate at hm
  rw [h, Option.some_bind] at hm
  rw [show (match Value.arr es with
    | Value.arr es =>
      (replaceAt c.raw p (Value.arr (m es).1)).map (fun raw2 =>
        (notifyChange { c with raw := raw2 } p none, (m es).2))
    | _ => none) =
    (replaceAt c.raw p (Value.arr (m es).1)).map (fun raw2 =>
      (notifyChange { c with raw := raw2 } p none, (m es).2)) from rfl,
    hra, Option.map_some'] at hm
  obtain ⟨h1, h2⟩ := Prod.mk.inj (Option.some.inj hm)
  subst h1
  subst h2
  refine ⟨rfl, ?_, ?_, ?_⟩
  · rw [(notifyChange_flags _ _ _).2.2.2]
    exact hget
  · rw [notifyChange_mem]
    right
    rw [mem_recordedPaths]
    left
    rfl
  · intro q hq
    rw [notifyChange_mem] at hq
    rcases hq with hq | hq
    · exact Or.inl hq
    · rw [mem_recordedPaths] at hq
      rcases hq with hq | ⟨hne1, hne2, hq⟩
      · exact Or.inr (Or.inl hq)
      · by_cases hlen : 2 ≤ p.length
        · right; right
          rw [hq]
          unfold parentToAdd
          rw [if_pos hlen]
        · right; left
          rw [hq]
          unfold parentToAdd
          rw [if_neg hlen]

/-- The component used by the C7 witness, holding `{todos: [1]}`. -/
def c7Input : CompState :=
  { raw := Value.obj [("todos", Value.arr [Value.prim (Prim.num 1)])]
    changedProps := []
    isReactive := true
    rendererPresent := true
    isDestroyed := false
    renderScheduled := false
    framesRequested := 0 }

/-- The component after the C7 witness's `todos.push(2)`. -/
def c7Out : CompState :=
  { raw := Value.obj [("todos",
      Value.arr [Value.prim (Prim.num 1), Value.prim (Prim.num 2)])]
    changedProps := [["todos"]]
    isReactive := true
    rendererPresent := true
    isDestroyed := false
    renderScheduled := true
    framesRequested := 1 }

/-- Witness for C7: `todos.push(2)` records the sequence's own path. -/
theorem c7_witness :
    (["todos"] : List String) ∈ c7Out.changedProps :=
  (c7_array_mutation c7Input c7Out (Value.prim (Prim.num 2)) ["todos"]
    [Value.prim (Prim.num 1)] (arrayPush [Value.prim (Prim.num 2)])
    rfl rfl).2.2.1

/-- C8: delivering the attach signal while already attached is a no-op
(state, counters and the connect hook included); over any lifetime
starting at construction the initial render runs at most once, it has run
exactly once precisely when `hasRenderedInitially` is set, and with
render-on-create enabled any lifetime that begins with an attach signal
(or starts attached at construction) has exactly one initial render. -/
theorem c8_connection_idempotence (c : CompR) (h : c.isConnected = true)
    (inDoc roc : Bool) (evs : List Ev) :
    handleConnected c = c ∧
      (runEv (construct inDoc roc) evs).initialRenders ≤ 1 ∧
      ((runEv (construct inDoc roc) evs).initialRenders = 1 ↔
        (runEv (construct inDoc roc) evs).hasRenderedInitially = true) ∧
      (roc = true →
        (runEv (construct inDoc roc) (Ev.attach :: evs)).initialRenders
          = 1) := by
  have hinv := renderOnceInv_run evs (construct inDoc roc)
    (renderOnceInv_construct inDoc roc)
  unfold renderOnceInv at hinv
  refine ⟨?_, ?_, ?_, ?_⟩
  · unfold handleConnected
    rw [if_pos (by simp [h])]
  · rw [hinv]
    by_cases hb : ((runEv (construct inDoc roc) evs).hasRenderedInitially
        = true)
    · rw [if_pos hb]
    · rw [if_neg hb]
      omega
  · rw [hinv]
    by_cases hb : ((runEv (construct inDoc roc) evs).hasRenderedInitially
        = true)
    · rw [if_pos hb]
      simp [hb]
    · rw [if_neg hb]
      constructor
      · intro h01
        exact absurd h01 (by decide)
      · intro hx
        exact absurd hx hb
  · intro hroc
    subst hroc
    have hx : (stepEv (construct inDoc true) Ev.attach).hasRenderedInitially
        = true := construct_attach_rendered inDoc
    have hinv2 := renderOnceInv_run evs (stepEv (construct inDoc true)
      Ev.attach) (renderOnceInv_step _ _ (renderOnceInv_construct inDoc true))
    have hrend := rendered_run evs _ hx
    have hsplit : runEv (construct inDoc true) (Ev.attach :: evs) =
        runEv (stepEv (construct inDoc true) Ev.attach) evs := rfl
    rw [hsplit]
    unfold renderOnceInv at hinv2
    rw [hinv2, if_pos hrend]

/-- An attached, live component for the C8 witness. -/
def c8Attached : CompR :=
  { isDestroyed := false
    isConnected := true
    hasRenderedInitially := true
    renderOnCreate := true
    connectedCalls := 1
    disconnectedCalls := 0
    initialRenders := 1 }

/-- Witness for C8: duplicate attach and detach signals leave at most one
initial render. -/
theorem c8_witness :
    (runEv (construct true true)
      [Ev.attach, Ev.attach, Ev.detach, Ev.detach]).initialRenders ≤ 1 :=
  (c8_connection_idempotence c8Attached rfl true true
    [Ev.attach, Ev.attach, Ev.detach, Ev.detach]).2.1

/-- C10: destroying a live component nulls the state manager and state
references, after which both `setState` and assignment through
`component.state` fail with a TypeError — a detectable failure, thrown
before any state is touched, so no render can be scheduled by such a
mutation. -/
theorem c10_destroyed_mutation_fails (s : Shell)
    (kvs : List (String × Value)) (k : String) (v : Value)
    (h : s.isDestroyed = false) :
    (destroyShell s).isDestroyed = true ∧
      (destroyShell s).core = none ∧
      setStateShell (destroyShell s) kvs =
        Except.error "TypeError: stateManager is null" ∧
      stateAssignShell (destroyShell s) k v =
        Except.error "TypeError: state is null" := by
  have hd : destroyShell s = { isDestroyed := true, core := none } := by
    unfold destroyShell
    rw [if_neg (by simp [h])]
  rw [hd]
  exact ⟨rfl, rfl, rfl, rfl⟩

/-- A live component shell for the C10 witness. -/
def c10Input : Shell :=
  { isDestroyed := false
    core := some c1Input }

/-- Witness for C10: `setState` after `destroy()` is a TypeError. -/
theorem c10_witness :
    setStateShell (destroyShell c10Input)
      [("count", Value.prim (Prim.num 1))] =
      Except.error "TypeError: stateManager is null" :=
  (c10_destroyed_mutation_fails c10Input
    [("count", Value.prim (Prim.num 1))] "count"
    (Value.prim (Prim.num 1)) rfl).2.2.1

end Stelar
